import Mathlib

/-!
Verification development for the process-execution subsystem and staged
test runner of the `tester-utils` harness.

Each definition below is a shallow embedding of one Go function or data
structure from the repository (file and symbol named in the doc comment).
OS-level effects (path lookup, `stat`, `cmd.Wait`, JSON/YAML parsing) are
modelled as explicit oracle inputs, so every function here is a pure,
executable Lean function mirroring the control flow of its source.
-/

namespace TesterUtils

/-! ## Executable results and `Executable.Wait` (executable/executable.go) -/

/-- Embeds `ExecutableResult` (executable.go): stdout/stderr byte slices and
the exit code. Bytes are modelled as natural numbers. -/
structure ExecResult where
  stdout : List Nat
  stderr : List Nat
  exitCode : Int
deriving Repr, DecidableEq

/-- The Go zero value `ExecutableResult{}` returned on error paths:
nil slices and exit code 0. -/
def emptyExecResult : ExecResult :=
  { stdout := [], stderr := [], exitCode := 0 }

/-- Embeds `formatBytesHumanReadable` (executable.go): human-readable byte
count used in the memory-limit error message. -/
def formatBytesHumanReadable (bytes : Int) : String :=
  if bytes ≥ 1073741824 then toString (bytes / 1073741824) ++ " GB"
  else if bytes ≥ 1048576 then toString (bytes / 1048576) ++ " MB"
  else if bytes ≥ 1024 then toString (bytes / 1024) ++ " KB"
  else toString bytes ++ " B"

/-- Everything the OS layer reports to `Executable.Wait` (executable.go,
lines 311-388), as a record of oracle inputs:
  * `errIsSome` / `errIsExitError`: whether `cmd.Wait()` returned an error
    and whether that error is an `*exec.ExitError`;
  * `rawExitCode`: `cmd.ProcessState.ExitCode()`;
  * `sysIsWaitStatus`, `signaled`, `signalNum`: the `syscall.WaitStatus`
    view of the exit (`Signaled()` and `Signal()`);
  * `deadlineExceeded`: whether `ctxWithTimeout.Err() == context.DeadlineExceeded`;
  * `oomKilled`: the memory monitor `wasOOMKilled()` answer;
  * `stdout`, `stderr`: bytes accumulated by the relay buffers;
  * `memoryLimitInBytes`: the configured cap (for the OOM message). -/
structure WaitReport where
  errIsSome : Bool
  errIsExitError : Bool
  rawExitCode : Int
  sysIsWaitStatus : Bool
  signaled : Bool
  signalNum : Nat
  deadlineExceeded : Bool
  oomKilled : Bool
  stdout : List Nat
  stderr : List Nat
  memoryLimitInBytes : Int

/-- Embeds the result/error computation of `Executable.Wait` (executable.go,
lines 346-387), after the relay goroutines have finished.  Mirrors the Go
control flow exactly:
  * a `cmd.Wait()` error that is not an `*exec.ExitError` is returned as-is
    with an empty result (line 362);
  * for an `*exec.ExitError` with raw exit code `-1` whose status says the
    child was terminated by a signal, the exit code becomes `128 + signal`;
  * if the deadline fired, return the error `"execution timed out"` with an
    empty result;
  * if the monitor reports an OOM kill, return the (truncated) result
    together with the memory-limit error;
  * otherwise return the result with no error. -/
def waitCompute (r : WaitReport) : ExecResult × Option String :=
  if r.errIsSome && !r.errIsExitError then
    (emptyExecResult, some "wait error")
  else
    let exitCode :=
      if r.errIsSome && r.errIsExitError && r.rawExitCode == -1
          && r.sysIsWaitStatus && r.signaled
      then 128 + (r.signalNum : Int)
      else r.rawExitCode
    let result : ExecResult :=
      { stdout := r.stdout, stderr := r.stderr, exitCode := exitCode }
    if r.deadlineExceeded then
      (emptyExecResult, some "execution timed out")
    else if r.oomKilled then
      (result,
        some ("process exceeded memory limit ("
          ++ formatBytesHumanReadable r.memoryLimitInBytes
          ++ "): process exceeded memory limit"))
    else
      (result, none)

/-! ## `Executable.setupIORelay` (executable.go, lines 239-260) -/

/-- Observable outcome of one stream relay goroutine. -/
structure RelayOutcome where
  /-- Bytes written into the bounded capture buffer (and the line writer
  and the exposed stream, which receive the same `MultiWriter` bytes). -/
  buffer : List Nat
  /-- How many times the truncation warning
  `"Warning: Logs exceeded allowed limit, output might be truncated.\n"`
  was emitted via `loggerFunc`. -/
  warningCount : Nat
  /-- Bytes drained into `io.Discard` after the cap. -/
  drained : List Nat
deriving Repr, DecidableEq

/-- The per-stream cap passed to `io.LimitReader` (30000 bytes). -/
def relayLimit : Nat := 30000

/-- Embeds `Executable.setupIORelay` (executable.go, lines 239-260): copy
`source` through `io.LimitReader(source, 30000)` into the multi-writer
destination, emit the truncation warning when the copied byte count equals
the cap, then drain the rest of the source into `io.Discard`. -/
def setupIORelayModel (source : List Nat) : RelayOutcome :=
  let limited := source.take relayLimit
  let bytesWritten := limited.length
  { buffer := limited
    warningCount := if bytesWritten == relayLimit then 1 else 0
    drained := source.drop relayLimit }

/-! ## Path resolution and `Executable.Start` (executable.go 143-237, utils.go 205-221) -/

/-- Strip trailing path separators, as in Go `filepath.Base`. -/
def stripTrailingSlashes (cs : List Char) : List Char :=
  (cs.reverse.dropWhile (fun c => c = '/')).reverse

/-- The segment after the last separator, as in Go `filepath.Base`. -/
def afterLastSlash (cs : List Char) : List Char :=
  (cs.reverse.takeWhile (fun c => c ≠ '/')).reverse

/-- Embeds Go `filepath.Base` (unix): empty input gives `"."`; trailing
separators are stripped; the last path element is returned; an all-separator
input gives `"/"`. -/
def baseName (s : String) : String :=
  let cs := s.toList
  if cs.isEmpty then "."
  else
    let last := afterLastSlash (stripTrailingSlashes cs)
    if last.isEmpty then "/" else String.mk last

/-- The subset of `os.FileInfo` that `Executable.Start` consults:
the 9-bit permission field of `Mode().Perm()` and `IsDir()`. -/
structure StatInfo where
  perm : Nat
  isDir : Bool
deriving Repr, DecidableEq

/-- Oracle for the OS calls made during `Executable.Start`:
  * `lookPathResult`: `exec.LookPath(path)` (`none` = error);
  * `absOfPathResult`: `filepath.Abs(path)` (`none` = error);
  * `absFinal`: the final `filepath.Abs(absolutePath)` call of
    `resolveAbsolutePath`, applied to the chosen candidate;
  * `statResult`: `os.Stat` keyed by the resolved absolute path;
  * `setupStreamsOk`, `cmdStartOk`, `findProcessOk`: whether
    `StdioHandler.SetupStreams`, `cmd.Start()` and `os.FindProcess`
    succeed. -/
structure StartOracle where
  lookPathResult : Option String
  absOfPathResult : Option String
  absFinal : String → Option String
  statResult : String → Option StatInfo
  setupStreamsOk : Bool
  cmdStartOk : Bool
  findProcessOk : Bool

/-- Embeds `resolveAbsolutePath` (utils.go, lines 205-221): try
`exec.LookPath`; on error fall back to `filepath.Abs(path)`; on success of
either, return `filepath.Abs` of the candidate. -/
def resolveAbsolutePath (o : StartOracle) : Option String :=
  match o.lookPathResult with
  | some p => o.absFinal p
  | none =>
    match o.absOfPathResult with
    | none => none
    | some p => o.absFinal p

/-- The live-state pointer/channel fields of the `Executable` struct
(executable.go, lines 53-69), abstracted to whether each is populated
(non-nil). `cmd` is the field `isRunning` consults. -/
structure ExecLiveState where
  cmd : Bool
  ctxWithTimeout : Bool
  ctxCancelFunc : Bool
  memoryMonitor : Bool
  readDone : Bool
  stdoutBuffer : Bool
  stdoutLineWriter : Bool
  stdoutStream : Bool
  stderrBuffer : Bool
  stderrLineWriter : Bool
  stderrStream : Bool
deriving Repr, DecidableEq

/-- The idle handle: no live-state field populated. -/
def idleState : ExecLiveState :=
  { cmd := false, ctxWithTimeout := false, ctxCancelFunc := false
    memoryMonitor := false, readDone := false
    stdoutBuffer := false, stdoutLineWriter := false, stdoutStream := false
    stderrBuffer := false, stderrLineWriter := false, stderrStream := false }

/-- All live-state fields populated (the state after a successful Start). -/
def ExecLiveState.allSet (s : ExecLiveState) : Bool :=
  s.cmd && s.ctxWithTimeout && s.ctxCancelFunc && s.memoryMonitor
    && s.readDone && s.stdoutBuffer && s.stdoutLineWriter && s.stdoutStream
    && s.stderrBuffer && s.stderrLineWriter && s.stderrStream

/-- No live-state field populated. -/
def ExecLiveState.isClear (s : ExecLiveState) : Bool :=
  !s.cmd && !s.ctxWithTimeout && !s.ctxCancelFunc && !s.memoryMonitor
    && !s.readDone && !s.stdoutBuffer && !s.stdoutLineWriter && !s.stdoutStream
    && !s.stderrBuffer && !s.stderrLineWriter && !s.stderrStream

/-- All live-state fields other than `cmd` populated (the state left
behind by a `Start` that failed after the permission checks). -/
def ExecLiveState.auxSet (s : ExecLiveState) : Bool :=
  s.ctxWithTimeout && s.ctxCancelFunc && s.memoryMonitor
    && s.readDone && s.stdoutBuffer && s.stdoutLineWriter && s.stdoutStream
    && s.stderrBuffer && s.stderrLineWriter && s.stderrStream

/-- Result of a `Start` call: the updated handle state, the returned error
(if any), and whether `cmd.Start()` was reached (a spawn was attempted). -/
structure StartResult where
  state : ExecLiveState
  err : Option String
  spawnAttempted : Bool

/-- Embeds `Executable.Start` (executable.go, lines 143-237) over the OS
oracle, tracking which live-state fields get populated.  Mirrors the source
order: reject while running; resolve the path (`"<basename> not found"` on
failure); `stat` (same error on failure); reject non-executables and
directories; set the timeout context and cancel function; create the memory
monitor, readiness channel, per-stream buffers, line writers and streams;
run `SetupStreams`; run `cmd.Start()`; look up the process; only then set
`cmd` (the comment at line 227 protects only `cmd` from partial failure). -/
def startModel (s : ExecLiveState) (path : String) (o : StartOracle) :
    StartResult :=
  if s.cmd then
    { state := s, err := some "process already in progress"
      spawnAttempted := false }
  else
    match resolveAbsolutePath o with
    | none =>
      { state := s, err := some (baseName path ++ " not found")
        spawnAttempted := false }
    | some absolutePath =>
      match o.statResult absolutePath with
      | none =>
        { state := s, err := some (baseName path ++ " not found")
          spawnAttempted := false }
      | some info =>
        if Nat.land info.perm 73 == 0 || info.isDir then
          { state := s
            err := some (path ++ " (resolved to " ++ absolutePath
              ++ ") is not an executable file")
            spawnAttempted := false }
        else
          let s1 : ExecLiveState :=
            { s with
              ctxWithTimeout := true, ctxCancelFunc := true
              memoryMonitor := true, readDone := true
              stdoutBuffer := true, stdoutLineWriter := true
              stdoutStream := true
              stderrBuffer := true, stderrLineWriter := true
              stderrStream := true }
          if !o.setupStreamsOk then
            { state := s1, err := some "setup streams failed"
              spawnAttempted := false }
          else if !o.cmdStartOk then
            { state := s1, err := some "cmd start failed"
              spawnAttempted := true }
          else if !o.findProcessOk then
            { state := s1, err := some "find process failed"
              spawnAttempted := true }
          else
            { state := { s1 with cmd := true }, err := none
              spawnAttempted := true }

/-- Embeds the deferred teardown of `Executable.Wait` (executable.go, lines
312-336): every live-state field is set to nil before Wait returns (and the
stdio handler is replaced by a fresh clone). -/
def waitClearModel (_s : ExecLiveState) : ExecLiveState :=
  { cmd := false, ctxWithTimeout := false, ctxCancelFunc := false
    memoryMonitor := false, readDone := false
    stdoutBuffer := false, stdoutLineWriter := false, stdoutStream := false
    stderrBuffer := false, stderrLineWriter := false, stderrStream := false }

/-! ## `Executable.initializeSafeEnvVars` (executable.go, lines 423-441) -/

/-- Embeds Go `strings.HasPrefix` on environment entries modelled as
character lists. -/
def hasPrefixB : List Char → List Char → Bool
  | [], _ => true
  | _ :: _, [] => false
  | a :: as, b :: bs => a == b && hasPrefixB as bs

/-- The filtered marker `"CODECRAFTERS_SECRET"` as a character list. -/
def secretEnvMarker : List Char := "CODECRAFTERS_SECRET".toList

/-- Lexicographic order on environment entries, as used by
`environ.Env.Sorted` (which sorts the `"NAME=value"` strings). -/
def charListLe : List Char → List Char → Bool
  | [], _ => true
  | _ :: _, [] => false
  | a :: as, b :: bs => if a = b then charListLe as bs else decide (a < b)

/-- The name part of a `"NAME=value"` environment entry: everything before
the first `=`. -/
def envVarName (v : List Char) : List Char :=
  v.takeWhile (fun c => c ≠ '=')

/-- Insert an entry into an already sorted list of entries. -/
def insertSorted (le : List Char → List Char → Bool) (x : List Char) :
    List (List Char) → List (List Char)
  | [] => [x]
  | y :: ys => if le x y then x :: y :: ys else y :: insertSorted le x ys

/-- Sorting of the environment entries, as `environ.Env.Sorted` sorts the
`"NAME=value"` strings lexicographically (modelled by insertion sort,
which produces the same sorted list). -/
def sortEnv : List (List Char) → List (List Char)
  | [] => []
  | x :: xs => insertSorted charListLe x (sortEnv xs)

/-- Embeds `Executable.initializeSafeEnvVars` (executable.go, lines
423-441): when the configured `Env` is empty fall back to the inherited
`os.Environ()`; sort the entries; drop every entry that starts with
`CODECRAFTERS_SECRET`. `env` is the caller-supplied `e.Env`, `osEnviron`
the inherited process environment. -/
def initializeSafeEnvVars (env osEnviron : List (List Char)) :
    List (List Char) :=
  let effectiveEnv := if env.length == 0 then osEnviron else env
  let allEnvVars := sortEnv effectiveEnv
  allEnvVars.filter (fun v => !(hasPrefixB secretEnvMarker v))

/-! ## `TestRunner.Run` (src/unnamed/part_006, lines 55-108) -/

/-- Embeds `TestRunnerStep` (test runner): a definition test case is
abstracted to its slug, plus the log label and the display title. -/
structure TestRunnerStep where
  slug : String
  testerLogPref : String
  title : String
deriving Repr, DecidableEq

/-- Embeds the aggregation phase of `TestRunner.Run` after both channels
are closed and drained: return `false` when any step failed; abort (`none`,
the `panic` at line 104) when there was no failure but the passed count
differs from the submitted count; otherwise return `true`. -/
def aggregateOutcome (numSteps : Nat)
    (failedSteps passedSteps : List TestRunnerStep) : Option Bool :=
  if failedSteps.length > 0 then some false
  else if passedSteps.length != numSteps then none
  else some true

/-- Embeds `TestRunner.Run` (part_006, lines 55-108): every submitted step
is run by one worker and pushed into exactly one of the two channels
according to its outcome (`passes`), then the channels are drained and
aggregated. `none` models the fatal `panic`. -/
def runModel (steps : List TestRunnerStep)
    (passes : TestRunnerStep → Bool) : Option Bool :=
  aggregateOutcome steps.length
    (steps.filter (fun s => !passes s))
    (steps.filter passes)

/-! ## `GetTesterContext` (src/unnamed/part_000, lines 44-105) -/

/-- Embeds `TesterContextTestCase`: one element of
`CODECRAFTERS_TEST_CASES_JSON`. -/
structure TesterContextTestCase where
  slug : String
  testerLogPref : String
  title : String
deriving Repr, DecidableEq

/-- Embeds `TesterContext`: the validated startup context. -/
structure TesterContext where
  executablePath : String
  isDebug : Bool
  testCases : List TesterContextTestCase
  shouldSkipAntiCheatTestCases : Bool
  isForkedProcessForTestRunnerStep : Bool
deriving Repr, DecidableEq

/-- Oracle inputs for `GetTesterContext`: the environment lookups, the
`json.Unmarshal` result for the test-case JSON and the `readFromYAML`
result for the config file (`none` models an error in either). -/
structure ContextInput where
  submissionDir : Option String
  forkedFlag : Option String
  testCasesJson : Option String
  parseTestCases : String → Option (List TesterContextTestCase)
  skipAntiCheat : Option String
  yamlDebug : String → Option Bool

/-- Embeds Go `path.Join` of a directory and a file name (the `Clean`
normalization is irrelevant to the validation logic modelled here). -/
def pathJoin (a b : String) : String := a ++ "/" ++ b

/-- The per-test-case validation of the loop at part_000 lines 70-82:
the first empty field of a test case yields its error message. -/
def testCaseFieldError (tc : TesterContextTestCase) : Option String :=
  if tc.slug == "" then
    some "CODECRAFTERS_TEST_CASES_JSON contains a test case with an empty slug"
  else if tc.testerLogPref == "" then
    some "CODECRAFTERS_TEST_CASES_JSON contains a test case with an empty tester_log_prefix"
  else if tc.title == "" then
    some "CODECRAFTERS_TEST_CASES_JSON contains a test case with an empty title"
  else none

/-- Embeds `GetTesterContext` (part_000, lines 44-105), in source order:
require `CODECRAFTERS_SUBMISSION_DIR`; read the forked-process flag;
require `CODECRAFTERS_TEST_CASES_JSON`; parse it; read the skip-anti-cheat
flag; validate every test case field; read the YAML config; reject an
empty test-case list (this check is unconditional in the source); build
the context. -/
def GetTesterContext (inp : ContextInput) (executableFileName : String) :
    Except String TesterContext :=
  match inp.submissionDir with
  | none => .error "CODECRAFTERS_SUBMISSION_DIR env var not found"
  | some submissionDir =>
    let isForked := inp.forkedFlag == some "true"
    match inp.testCasesJson with
    | none => .error "CODECRAFTERS_TEST_CASES_JSON env var not found"
    | some raw =>
      match inp.parseTestCases raw with
      | none => .error "failed to parse CODECRAFTERS_TEST_CASES_JSON"
      | some testCases =>
        let shouldSkip := inp.skipAntiCheat == some "true"
        match testCases.findSome? testCaseFieldError with
        | some e => .error e
        | none =>
          let configPath := pathJoin submissionDir "codecrafters.yml"
          let executablePath := pathJoin submissionDir executableFileName
          match inp.yamlDebug configPath with
          | none => .error "failed to read codecrafters.yml"
          | some debug =>
            if testCases.length == 0 then
              .error "CODECRAFTERS_TEST_CASES is empty"
            else
              .ok { executablePath := executablePath
                    isDebug := debug
                    testCases := testCases
                    shouldSkipAntiCheatTestCases := shouldSkip
                    isForkedProcessForTestRunnerStep := isForked }

/-- `true` iff the `Except` result is an error. -/
def isErr {α : Type} (r : Except String α) : Bool :=
  match r with
  | .error _ => true
  | .ok _ => false

/-! ## `Executable.Clone` (executable.go, lines 97-106) -/

/-- The three stdio topologies with their per-variant configuration and
whether descriptors are currently open.  `PipeTrioStdioHandler.Clone`
returns an empty handler; `PtyTrioStdioHandler.Clone` keeps
`DisableAutomaticIORelay`; `SinglePtyStdioHandler.Clone` keeps
`Width`/`Height`; none keeps open descriptors. -/
inductive StdioHandlerM where
  | pipeTrio (hasOpenStreams : Bool)
  | ptyTrio (disableAutomaticIORelay : Bool) (hasOpenStreams : Bool)
  | singlePty (width height : Nat) (hasOpenStreams : Bool)
deriving Repr, DecidableEq

/-- The topology tag of a handler. -/
inductive Topology where
  | pipeTrio
  | ptyTrio
  | singlePty
deriving Repr, DecidableEq

/-- Which topology a handler realizes. -/
def StdioHandlerM.topology : StdioHandlerM → Topology
  | .pipeTrio _ => .pipeTrio
  | .ptyTrio _ _ => .ptyTrio
  | .singlePty _ _ _ => .singlePty

/-- Embeds the `Clone` methods of the three stdio handlers: same variant,
same per-variant configuration, no open descriptors. -/
def StdioHandlerM.cloneHandler : StdioHandlerM → StdioHandlerM
  | .pipeTrio _ => .pipeTrio false
  | .ptyTrio d _ => .ptyTrio d false
  | .singlePty w h _ => .singlePty w h false

/-- `true` iff the handler holds no open descriptors (a fresh handler). -/
def StdioHandlerM.isFresh : StdioHandlerM → Bool
  | .pipeTrio o => !o
  | .ptyTrio _ o => !o
  | .singlePty _ _ o => !o

/-- Embeds the `Executable` struct (executable.go, lines 24-70):
configuration fields plus the live state.  The Go function value
`loggerFunc` is abstracted to an identifier. -/
structure ExecutableM where
  path : String
  timeoutInMilliseconds : Nat
  memoryLimitInBytes : Int
  workingDir : String
  env : List String
  loggerFunc : Nat
  stdioHandler : StdioHandlerM
  live : ExecLiveState
deriving Repr, DecidableEq

/-- Embeds `Executable.Clone` (executable.go, lines 97-106).  The source
copies exactly `Path`, `TimeoutInMilliseconds`, `loggerFunc`, `WorkingDir`,
`StdioHandler.Clone()` and `MemoryLimitInBytes`; every other field —
including `Env` — is left at its zero value. -/
def ExecutableM.clone (e : ExecutableM) : ExecutableM :=
  { path := e.path
    timeoutInMilliseconds := e.timeoutInMilliseconds
    loggerFunc := e.loggerFunc
    workingDir := e.workingDir
    stdioHandler := e.stdioHandler.cloneHandler
    memoryLimitInBytes := e.memoryLimitInBytes
    env := []
    live := idleState }

/-! ## `Logger` secondary-prefix stack (src/unnamed/part_004, lines 71-192) -/

/-- First line of a string, as `colorize` splits on newlines and
`SetPrefix` takes element `[0]`. -/
def firstLine (s : String) : String :=
  (s.splitOn "\n").headD ""

/-- Embeds `yellowColorize(...)[0]` followed by `SetPrefix`: the first line
wrapped in the ANSI yellow escape pair used by the color library. -/
def yellowColor (s : String) : String :=
  "\x1b[33m" ++ firstLine s ++ "\x1b[0m"

/-- Embeds the `Logger` state (part_004, lines 71-89): the primary string
`prefix`, the stack `secondaryPrefixes`, and the rendered value the
underlying `log.Logger` currently uses as its line header. -/
structure LoggerM where
  primaryPref : String
  secondaryPrefixes : List String
  rendered : String
deriving Repr, DecidableEq

/-- Embeds `updateLoggerPrefix` (part_004, lines 157-167): re-render the
line header from the primary string and the stack. -/
def updateRendered (l : LoggerM) : LoggerM :=
  if l.secondaryPrefixes.isEmpty then
    { l with rendered := yellowColor l.primaryPref }
  else
    let fullPref := l.secondaryPrefixes.foldl
      (fun acc p => acc ++ "[" ++ p ++ "] ") l.primaryPref
    { l with rendered := yellowColor fullPref }

/-- Embeds `Logger.PushSecondaryPrefix` (part_004, lines 170-173). -/
def pushSecondary (l : LoggerM) (p : String) : LoggerM :=
  updateRendered { l with secondaryPrefixes := l.secondaryPrefixes ++ [p] }

/-- Embeds `Logger.PopSecondaryPrefix` (part_004, lines 176-184): when the
stack is empty return `""` without touching any state; otherwise remove the
top element, re-render, and return the removed element. -/
def popSecondary (l : LoggerM) : String × LoggerM :=
  if l.secondaryPrefixes.isEmpty then
    ("", l)
  else
    let lastPref := l.secondaryPrefixes.getLastD ""
    (lastPref,
      updateRendered { l with
        secondaryPrefixes := l.secondaryPrefixes.dropLast })

/-! ## Sample inputs used by witnesses and counterexamples -/

/-- A wait report for a child killed by SIGTERM (signal 15): `cmd.Wait`
returns an `*exec.ExitError`, the raw exit code is `-1`, the status is a
`syscall.WaitStatus` with `Signaled() == true`, and neither the deadline
nor the memory monitor fired. -/
def sigtermReport : WaitReport :=
  { errIsSome := true, errIsExitError := true, rawExitCode := -1
    sysIsWaitStatus := true, signaled := true, signalNum := 15
    deadlineExceeded := false, oomKilled := false
    stdout := [], stderr := [], memoryLimitInBytes := 2147483648 }

/-- A wait report for `sleep 10` under a 50 ms timeout: the deadline fired,
the SIGKILLed child yields an `*exec.ExitError`. -/
def timeoutReport : WaitReport :=
  { errIsSome := true, errIsExitError := true, rawExitCode := -1
    sysIsWaitStatus := true, signaled := true, signalNum := 9
    deadlineExceeded := true, oomKilled := false
    stdout := [104, 105], stderr := [], memoryLimitInBytes := 2147483648 }

/-- A start oracle where the executable resolves and stats fine but
`StdioHandler.SetupStreams` fails. -/
def setupFailOracle : StartOracle :=
  { lookPathResult := some "/bin/prog"
    absOfPathResult := some "/bin/prog"
    absFinal := fun p => some p
    statResult := fun _ => some { perm := 493, isDir := false }
    setupStreamsOk := false
    cmdStartOk := true
    findProcessOk := true }

/-- A start oracle where neither `exec.LookPath` nor `filepath.Abs`
resolves the path. -/
def notFoundOracle : StartOracle :=
  { lookPathResult := none
    absOfPathResult := none
    absFinal := fun _ => none
    statResult := fun _ => none
    setupStreamsOk := true
    cmdStartOk := true
    findProcessOk := true }

/-- A start oracle where the path resolves but the target is a directory. -/
def directoryOracle : StartOracle :=
  { lookPathResult := some "/tmp/dir"
    absOfPathResult := some "/tmp/dir"
    absFinal := fun p => some p
    statResult := fun _ => some { perm := 493, isDir := true }
    setupStreamsOk := true
    cmdStartOk := true
    findProcessOk := true }

/-- A start oracle where everything succeeds. -/
def happyOracle : StartOracle :=
  { lookPathResult := some "/bin/prog"
    absOfPathResult := some "/bin/prog"
    absFinal := fun p => some p
    statResult := fun _ => some { perm := 493, isDir := false }
    setupStreamsOk := true
    cmdStartOk := true
    findProcessOk := true }

/-- A caller-supplied environment with one ordinary and one secret entry. -/
def sampleEnv : List (List Char) :=
  ["FOO=1".toList, "CODECRAFTERS_SECRET_KEY=x".toList]

/-- One concrete runner step. -/
def sampleStep : TestRunnerStep :=
  { slug := "bind-to-port", testerLogPref := "stage-1"
    title := "Stage 1: Bind to a port" }

/-- A `GetTesterContext` input describing a worker process
(`CODECRAFTERS_IS_FORKED_PROCESS_FOR_TEST_RUNNER_STEP=true`) whose
test-case JSON parses to the empty list while every other requirement is
satisfied. -/
def workerEmptyInput : ContextInput :=
  { submissionDir := some "/submission"
    forkedFlag := some "true"
    testCasesJson := some "[]"
    parseTestCases := fun _ => some []
    skipAntiCheat := none
    yamlDebug := fun _ => some false }

/-- A concrete executable handle with a non-empty caller-supplied
environment. -/
def sampleExecutable : ExecutableM :=
  { path := "/bin/prog", timeoutInMilliseconds := 10000
    memoryLimitInBytes := 2147483648, workingDir := "/tmp"
    env := ["FOO=bar"], loggerFunc := 1
    stdioHandler := .ptyTrio false true, live := idleState }

/-- A logger with an empty secondary stack. -/
def sampleLogger : LoggerM :=
  { primaryPref := "[stage-1] ", secondaryPrefixes := []
    rendered := yellowColor "[stage-1] " }

/-! ## Theorems -/

/-- Claim C1: in every run of `Executable.Wait` in which the OS layer
reports that the child was terminated by a signal N (the wait error is an
`*exec.ExitError`, the raw exit code is `-1`, and the `syscall.WaitStatus`
says `Signaled()`), and in which a result payload is returned (the timeout
deadline has not fired — with the deadline fired, Wait returns the
timed-out error with no payload, which is claim C2), the `ExitCode` of the
returned result is `128 + N`; in particular a segfaulting child (signal
11) yields 139 and a SIGTERM-killed child (signal 15) yields 143. -/
theorem wait_signaled_exit_code (r : WaitReport)
    (h1 : r.errIsSome = true) (h2 : r.errIsExitError = true)
    (h3 : r.rawExitCode = -1) (h4 : r.sysIsWaitStatus = true)
    (h5 : r.signaled = true) (h6 : r.deadlineExceeded = false) :
    (waitCompute r).1.exitCode = 128 + (r.signalNum : Int)
      ∧ (r.signalNum = 11 → (waitCompute r).1.exitCode = 139)
      ∧ (r.signalNum = 15 → (waitCompute r).1.exitCode = 143) := by
  have hfst : (waitCompute r).1.exitCode = 128 + (r.signalNum : Int) := by
    cases hoom : r.oomKilled <;>
      simp [waitCompute, h1, h2, h3, h4, h5, h6, hoom]
  refine ⟨hfst, ?_, ?_⟩
  · intro h11
    rw [hfst, h11]
    norm_num
  · intro h15
    rw [hfst, h15]
    norm_num

/-- Witness for C1: a child killed by SIGTERM yields exit code 143. -/
theorem wait_signaled_exit_code_witness :
    (waitCompute sigtermReport).1.exitCode = 143 :=
  (wait_signaled_exit_code sigtermReport rfl rfl rfl rfl rfl rfl).2.2 rfl

/-- Claim C2: in every run of `Executable.Wait` in which the deadline
attached at `Start` has elapsed (the context reports deadline exceeded) by
the time `Wait` computes its result — and the OS wait reported a process
exit rather than a wait-layer failure (a non-`ExitError` wait error is
returned as-is at line 362, before the deadline check) — `Wait` returns
the error `"execution timed out"` together with the empty result (no
stdout, no stderr, exit code zero value). -/
theorem wait_deadline_timeout (r : WaitReport)
    (h1 : r.deadlineExceeded = true)
    (h2 : r.errIsSome = true → r.errIsExitError = true) :
    waitCompute r = (emptyExecResult, some "execution timed out") := by
  cases hsome : r.errIsSome with
  | false => simp [waitCompute, hsome, h1]
  | true => simp [waitCompute, hsome, h2 hsome, h1]

/-- Witness for C2: `sleep 10` under a 50 ms timeout is SIGKILLed by the
context; `Wait` returns the timed-out error and the empty payload. -/
theorem wait_deadline_timeout_witness :
    waitCompute timeoutReport = (emptyExecResult, some "execution timed out") :=
  wait_deadline_timeout timeoutReport rfl (fun _ => rfl)

/-- Helper: the relay emits the warning exactly when the stream length is
at least the 30000-byte cap (the source warns when `bytesWritten`, the
length of the limited copy, equals the cap). -/
theorem relay_warning_eq (source : List Nat) :
    (setupIORelayModel source).warningCount
      = if 30000 ≤ source.length then 1 else 0 := by
  show (if (source.take 30000).length == 30000 then 1 else 0)
      = if 30000 ≤ source.length then 1 else 0
  rw [List.length_take]
  rcases le_or_lt 30000 source.length with h | h
  · rw [Nat.min_eq_left h]
    simp [h]
  · rw [Nat.min_eq_right (Nat.le_of_lt h)]
    have hne : source.length ≠ 30000 := by omega
    have hnle : ¬ 30000 ≤ source.length := by omega
    simp [hne, hnle]

/-- Counterexample to claim C3 as stated: a child writing exactly 30000
bytes triggers the truncation warning (the source warns whenever
`bytesWritten == 30000`, i.e. whenever the cap was reached), even though
its output does not exceed 30000 bytes.  The claim's "warning iff the
output exceeds 30,000 bytes" is therefore false at this input. -/
theorem relay_warning_at_cap_counterexample :
    (setupIORelayModel (List.replicate 30000 0)).warningCount = 1
      ∧ ¬ (List.replicate 30000 (0 : Nat)).length > 30000 := by
  have h := relay_warning_eq (List.replicate 30000 0)
  rw [List.length_replicate] at h
  constructor
  · rw [h]
    norm_num
  · rw [List.length_replicate]
    omega

/-- Claim C3, amended: the captured buffer never exceeds 30000 bytes; a
child writing at most 30000 bytes has its output captured in full; the
truncation warning is emitted exactly once iff the stream produced at
least 30000 bytes (i.e. the cap was reached — including the boundary case
of exactly 30000 bytes, which the original claim excluded); and the bytes
beyond the cap are exactly the ones drained into the discard sink, so
buffer and drain together account for the whole stream. -/
theorem relay_cap_amended (source : List Nat) :
    (setupIORelayModel source).buffer.length ≤ 30000
      ∧ (source.length ≤ 30000 → (setupIORelayModel source).buffer = source)
      ∧ ((setupIORelayModel source).warningCount = 1 ↔ 30000 ≤ source.length)
      ∧ (setupIORelayModel source).warningCount ≤ 1
      ∧ (setupIORelayModel source).buffer ++ (setupIORelayModel source).drained
          = source := by
  refine ⟨?_, ?_, ?_, ?_, ?_⟩
  · simp [setupIORelayModel, relayLimit]
  · intro h
    simp [setupIORelayModel, relayLimit, List.take_of_length_le h]
  · rw [relay_warning_eq]
    split
    case isTrue h => exact iff_of_true rfl h
    case isFalse h => exact iff_of_false (by omega) h
  · rw [relay_warning_eq]
    split <;> omega
  · simp [setupIORelayModel, relayLimit]

/-- Witness for C3 (amended): a three-byte stream is captured in full with
no warning and nothing drained. -/
theorem relay_cap_amended_witness :
    (setupIORelayModel [1, 2, 3]).buffer = [1, 2, 3] :=
  (relay_cap_amended [1, 2, 3]).2.1 (by norm_num)

/-- Counterexample to claim C4 as stated: a `Start` from an idle handle
that passes path resolution, `stat` and the permission check but fails at
`StdioHandler.SetupStreams` returns an error, yet does NOT leave the
handle with no live state: the timeout context, cancel function, monitor,
buffers, line writers, streams and readiness channel were already
populated (executable.go lines 168-199 run before the fallible steps and
only `cmd` is guarded by the line-227 comment). -/
theorem start_failed_live_state_counterexample :
    (startModel idleState "/bin/prog" setupFailOracle).err.isSome = true
      ∧ (startModel idleState "/bin/prog" setupFailOracle).state.isClear = false
      ∧ (startModel idleState "/bin/prog" setupFailOracle).state.ctxCancelFunc = true
      ∧ (startModel idleState "/bin/prog" setupFailOracle).state.cmd = false := by
  refine ⟨rfl, rfl, rfl, rfl⟩

/-- Claim C4, amended: calling `Start` while a child is live is rejected
with the error `"process already in progress"` and changes nothing; every
successful `Start` populates all live-state fields; `Wait` always clears
them all before returning; and a failed `Start` from an idle handle either
leaves the handle unchanged (failures during path resolution, `stat` or
the permission check, before any live field is touched) or — for failures
at stream setup, spawn or process lookup — leaves every live-state field
except `cmd` populated while `cmd` stays nil, so the handle still counts
as idle for `isRunning` (the original claim's "a failed Start leaves the
handle with no live state" holds only for the first group). -/
theorem start_wait_live_state_amended (s : ExecLiveState) (p : String)
    (o : StartOracle) :
    (s.cmd = true →
        startModel s p o = ⟨s, some "process already in progress", false⟩)
      ∧ ((startModel s p o).err = none →
          (startModel s p o).state.allSet = true)
      ∧ ((waitClearModel (startModel s p o).state).isClear = true)
      ∧ (s.cmd = false → (startModel s p o).err.isSome = true →
          ((startModel s p o).state = s
              ∧ (startModel s p o).spawnAttempted = false)
            ∨ ((startModel s p o).state.cmd = false
              ∧ (startModel s p o).state.auxSet = true)) := by
  refine ⟨?_, ?_, rfl, ?_⟩
  · intro h
    simp [startModel, h]
  · intro h
    cases hcmd : s.cmd
    · rcases hres : resolveAbsolutePath o with _ | abs
      · simp [startModel, hcmd, hres] at h
      · rcases hstat : o.statResult abs with _ | info
        · simp [startModel, hcmd, hres, hstat] at h
        · cases hperm : (Nat.land info.perm 73 == 0 || info.isDir)
          · cases hsetup : o.setupStreamsOk
            · simp [startModel, hcmd, hres, hstat, hperm, hsetup] at h
            · cases hstart : o.cmdStartOk
              · simp [startModel, hcmd, hres, hstat, hperm, hsetup,
                  hstart] at h
              · cases hfind : o.findProcessOk
                · simp [startModel, hcmd, hres, hstat, hperm, hsetup,
                    hstart, hfind] at h
                · simp [startModel, hcmd, hres, hstat, hperm, hsetup,
                    hstart, hfind, ExecLiveState.allSet]
          · simp [startModel, hcmd, hres, hstat, hperm] at h
    · simp [startModel, hcmd] at h
  · intro hcmd herr
    cases hres : resolveAbsolutePath o with
    | none => exact Or.inl (by simp [startModel, hcmd, hres])
    | some abs =>
      cases hstat : o.statResult abs with
      | none => exact Or.inl (by simp [startModel, hcmd, hres, hstat])
      | some info =>
        cases hperm : (Nat.land info.perm 73 == 0 || info.isDir)
        · cases hsetup : o.setupStreamsOk
          · exact Or.inr (by
              simp [startModel, hcmd, hres, hstat, hperm, hsetup,
                ExecLiveState.auxSet])
          · cases hstart : o.cmdStartOk
            · exact Or.inr (by
                simp [startModel, hcmd, hres, hstat, hperm, hsetup, hstart,
                  ExecLiveState.auxSet])
            · cases hfind : o.findProcessOk
              · exact Or.inr (by
                  simp [startModel, hcmd, hres, hstat, hperm, hsetup,
                    hstart, hfind, ExecLiveState.auxSet])
              · exact absurd herr (by
                  simp [startModel, hcmd, hres, hstat, hperm, hsetup,
                    hstart, hfind])
        · exact Or.inl (by simp [startModel, hcmd, hres, hstat, hperm])

/-- Witness for C4 (amended): a successful start from idle populates every
live-state field. -/
theorem start_wait_live_state_amended_witness :
    (startModel idleState "/bin/prog" happyOracle).state.allSet = true :=
  (start_wait_live_state_amended idleState "/bin/prog" happyOracle).2.1 rfl

/-- Claim C5: with no child live, `Start` rejects with
`"<basename> not found"` when `resolveAbsolutePath` fails or when `stat`
of the resolved path fails, and rejects with
`"<path> (resolved to <absolutePath>) is not an executable file"` when the
permission bits contain no execute bit or the target is a directory; in
all three cases the handle is unchanged and no spawn is attempted. -/
theorem start_rejection_errors (s : ExecLiveState) (p : String)
    (o : StartOracle) (hrun : s.cmd = false) :
    (resolveAbsolutePath o = none →
        startModel s p o = ⟨s, some (baseName p ++ " not found"), false⟩)
      ∧ (∀ abs, resolveAbsolutePath o = some abs →
          o.statResult abs = none →
          startModel s p o = ⟨s, some (baseName p ++ " not found"), false⟩)
      ∧ (∀ abs info, resolveAbsolutePath o = some abs →
          o.statResult abs = some info →
          (Nat.land info.perm 73 = 0 ∨ info.isDir = true) →
          startModel s p o
            = ⟨s, some (p ++ " (resolved to " ++ abs
                ++ ") is not an executable file"), false⟩) := by
  refine ⟨?_, ?_, ?_⟩
  · intro hres
    simp [startModel, hrun, hres]
  · intro abs hres hstat
    simp [startModel, hrun, hres, hstat]
  · intro abs info hres hstat hbad
    have hcond : (Nat.land info.perm 73 == 0 || info.isDir) = true := by
      rcases hbad with h | h <;> simp [h]
    simp [startModel, hrun, hres, hstat, hcond]

/-- Witness for C5: a path that neither `exec.LookPath` nor `filepath.Abs`
resolves yields `"my_app not found"`; a resolved directory yields the
not-an-executable-file message. -/
theorem start_rejection_errors_witness :
    startModel idleState "./my_app" notFoundOracle
        = ⟨idleState, some (baseName "./my_app" ++ " not found"), false⟩
      ∧ baseName "./my_app" ++ " not found" = "my_app not found"
      ∧ startModel idleState "/tmp/dir" directoryOracle
        = ⟨idleState, some ("/tmp/dir" ++ " (resolved to " ++ "/tmp/dir"
            ++ ") is not an executable file"), false⟩ := by
  refine ⟨(start_rejection_errors idleState "./my_app" notFoundOracle rfl).1
      rfl, by decide, ?_⟩
  exact (start_rejection_errors idleState "/tmp/dir" directoryOracle
    rfl).2.2 "/tmp/dir" { perm := 493, isDir := true } rfl rfl (Or.inr rfl)

/-- Helper: insertion keeps exactly the old members plus the new entry. -/
theorem mem_insertSorted (le : List Char → List Char → Bool)
    (x a : List Char) (l : List (List Char)) :
    a ∈ insertSorted le x l ↔ a = x ∨ a ∈ l := by
  induction l with
  | nil => simp [insertSorted]
  | cons y ys ih =>
    cases h : le x y
    · simp only [insertSorted, h, Bool.false_eq_true, if_false,
        List.mem_cons, ih]
      tauto
    · simp [insertSorted, h]

/-- Helper: sorting preserves membership. -/
theorem mem_sortEnv (a : List Char) (l : List (List Char)) :
    a ∈ sortEnv l ↔ a ∈ l := by
  induction l with
  | nil => simp [sortEnv]
  | cons x xs ih => simp [sortEnv, mem_insertSorted, ih]

/-- Helper: `hasPrefixB` agrees with the list-prefix relation. -/
theorem hasPrefixB_iff (p l : List Char) :
    hasPrefixB p l = true ↔ p <+: l := by
  induction p generalizing l with
  | nil => simp [hasPrefixB]
  | cons a as ih =>
    cases l with
    | nil => simp [hasPrefixB]
    | cons b bs => simp [hasPrefixB, List.cons_prefix_cons, ih]

/-- Helper: when the marker contains no `=`, an entry that starts with the
marker also has a NAME part that starts with the marker. -/
theorem markerPrefixLift :
    ∀ p l : List Char, '=' ∉ p → p <+: l → p <+: envVarName l := by
  intro p
  induction p with
  | nil =>
    intro l _ _
    exact List.nil_prefix
  | cons a as ih =>
    intro l h hp
    cases l with
    | nil =>
      rw [List.prefix_nil] at hp
      exact absurd hp (by simp)
    | cons b bs =>
      rw [List.cons_prefix_cons] at hp
      obtain ⟨rfl, hrest⟩ := hp
      have ha : a ≠ '=' := fun hEq => h (hEq ▸ List.mem_cons_self a as)
      have hname : envVarName (a :: bs) = a :: envVarName bs := by
        simp [envVarName, ha]
      rw [hname, List.cons_prefix_cons]
      exact ⟨rfl, ih bs (fun hm => h (List.mem_cons_of_mem _ hm)) hrest⟩

/-- Claim C6: for every environment handed to a started child, no entry
whose NAME starts with `CODECRAFTERS_SECRET` survives
`initializeSafeEnvVars`, and every entry of the effective environment
(caller-supplied, or inherited when none was supplied) whose NAME does not
start with `CODECRAFTERS_SECRET` is preserved. -/
theorem env_secret_filtering (env osEnviron : List (List Char)) :
    (∀ v ∈ initializeSafeEnvVars env osEnviron,
        ¬ secretEnvMarker <+: envVarName v)
      ∧ (∀ v ∈ (if env.length == 0 then osEnviron else env),
          ¬ secretEnvMarker <+: envVarName v →
          v ∈ initializeSafeEnvVars env osEnviron) := by
  constructor
  · intro v hv hcontra
    have h2 : secretEnvMarker <+: v :=
      hcontra.trans (List.takeWhile_prefix _)
    simp only [initializeSafeEnvVars] at hv
    obtain ⟨_, hfilt⟩ := List.mem_filter.mp hv
    have hfalse : hasPrefixB secretEnvMarker v = false := by
      simpa using hfilt
    rw [← hasPrefixB_iff] at h2
    rw [hfalse] at h2
    exact Bool.false_ne_true h2
  · intro v hv hn
    have h2 : ¬ secretEnvMarker <+: v := fun hc =>
      hn (markerPrefixLift secretEnvMarker v (by decide) hc)
    simp only [initializeSafeEnvVars]
    apply List.mem_filter.mpr
    constructor
    · exact (mem_sortEnv v _).mpr hv
    · cases hb : hasPrefixB secretEnvMarker v
      · simp
      · exact absurd ((hasPrefixB_iff _ _).mp hb) h2

/-- Witness for C6: in a caller-supplied environment holding `FOO=1` and
`CODECRAFTERS_SECRET_KEY=x`, the ordinary entry is preserved by the
filter. -/
theorem env_secret_filtering_witness :
    "FOO=1".toList ∈ initializeSafeEnvVars sampleEnv [] :=
  (env_secret_filtering sampleEnv []).2 "FOO=1".toList (by decide) (by decide)

/-- Helper: the two outcome filters partition the submitted steps. -/
theorem length_filter_partition (l : List TestRunnerStep)
    (p : TestRunnerStep → Bool) :
    (l.filter p).length + (l.filter (fun s => !p s)).length = l.length := by
  induction l with
  | nil => rfl
  | cons x xs ih =>
    cases h : p x <;> simp [List.filter_cons, h] <;> omega

/-- Claim C7: for N submitted steps of which K fail, `TestRunner.Run`
returns false iff K > 0; with K = 0 it returns true and the collected
passed steps are exactly the submitted steps; and in the aggregation phase
a passed-step count different from the submitted count with zero failures
hits the fatal `panic` (modelled as `none`). -/
theorem run_result_aggregation (steps : List TestRunnerStep)
    (passes : TestRunnerStep → Bool) :
    (runModel steps passes = some false
        ↔ 0 < (steps.filter (fun s => !passes s)).length)
      ∧ ((steps.filter (fun s => !passes s)).length = 0 →
          runModel steps passes = some true
            ∧ steps.filter passes = steps)
      ∧ (∀ n passedSteps, passedSteps.length ≠ n →
          aggregateOutcome n [] passedSteps = none) := by
  have hpart := length_filter_partition steps passes
  refine ⟨?_, ?_, ?_⟩
  · constructor
    · intro h
      by_contra hc
      have hK : (steps.filter (fun s => !passes s)).length = 0 := by omega
      have hlen : (steps.filter passes).length = steps.length := by omega
      simp [runModel, aggregateOutcome, hK, hlen] at h
    · intro h
      simp [runModel, aggregateOutcome, h]
  · intro hK
    have hlen : (steps.filter passes).length = steps.length := by omega
    have hall : steps.filter passes = steps := by
      rw [List.filter_eq_self]
      intro a ha
      by_contra hpa
      have hmem : a ∈ steps.filter (fun s => !passes s) :=
        List.mem_filter.mpr ⟨ha, by simp [hpa]⟩
      rw [List.length_eq_zero] at hK
      rw [hK] at hmem
      simp at hmem
    exact ⟨by simp [runModel, aggregateOutcome, hK, hlen], hall⟩
  · intro n passedSteps hne
    simp [aggregateOutcome, hne]

/-- Witness for C7: a single all-passing step yields `true` and the passed
set equals the submitted set. -/
theorem run_result_aggregation_witness :
    runModel [sampleStep] (fun _ => true) = some true
      ∧ [sampleStep].filter (fun _ => true) = [sampleStep] :=
  (run_result_aggregation [sampleStep] (fun _ => true)).2.1 rfl

/-- Helper: a test case with an empty field always yields a field error. -/
theorem testCaseFieldError_ne_none (tc : TesterContextTestCase)
    (h : tc.slug = "" ∨ tc.testerLogPref = "" ∨ tc.title = "") :
    testCaseFieldError tc ≠ none := by
  unfold testCaseFieldError
  split_ifs with h1 h2 h3
  · simp
  · simp
  · simp
  · rcases h with h | h | h
    · exact absurd h (by simpa using h1)
    · exact absurd h (by simpa using h2)
    · exact absurd h (by simpa using h3)

/-- Helper: `findSome?` cannot miss a member that yields a result. -/
theorem findSome?_ne_none_of_mem (l : List TesterContextTestCase)
    (tc : TesterContextTestCase) (h : tc ∈ l)
    (he : testCaseFieldError tc ≠ none) :
    l.findSome? testCaseFieldError ≠ none := by
  induction l with
  | nil => cases h
  | cons x xs ih =>
    cases h with
    | head =>
      cases hfx : testCaseFieldError tc with
      | none => exact absurd hfx he
      | some e => simp [List.findSome?_cons, hfx]
    | tail _ hmem =>
      cases hfx : testCaseFieldError x with
      | none =>
        simpa [List.findSome?_cons, hfx] using ih hmem
      | some e => simp [List.findSome?_cons, hfx]

/-- Counterexample to claim C8 as stated: with the worker-process flag set
(`CODECRAFTERS_IS_FORKED_PROCESS_FOR_TEST_RUNNER_STEP=true`) and every
other requirement satisfied, an empty parsed test-case list is still
rejected — the source check at part_000 lines 92-94 is unconditional, so
the claimed waiver for worker processes does not exist. -/
theorem tester_context_worker_counterexample :
    workerEmptyInput.forkedFlag = some "true"
      ∧ GetTesterContext workerEmptyInput "my_app"
          = .error "CODECRAFTERS_TEST_CASES is empty" :=
  ⟨rfl, rfl⟩

/-- Claim C8, amended: `GetTesterContext` returns an error (and no
context) whenever `CODECRAFTERS_SUBMISSION_DIR` or
`CODECRAFTERS_TEST_CASES_JSON` is absent, whenever any parsed test case
has an empty slug, tester_log_prefix or title, and whenever the parsed
test-case list is empty — unconditionally, with no waiver for worker
processes. -/
theorem tester_context_errors_amended (inp : ContextInput) (f : String) :
    (inp.submissionDir = none → isErr (GetTesterContext inp f) = true)
      ∧ (inp.testCasesJson = none → isErr (GetTesterContext inp f) = true)
      ∧ (∀ raw tcs tc, inp.testCasesJson = some raw →
          inp.parseTestCases raw = some tcs → tc ∈ tcs →
          (tc.slug = "" ∨ tc.testerLogPref = "" ∨ tc.title = "") →
          isErr (GetTesterContext inp f) = true)
      ∧ (∀ raw, inp.testCasesJson = some raw →
          inp.parseTestCases raw = some [] →
          isErr (GetTesterContext inp f) = true) := by
  refine ⟨?_, ?_, ?_, ?_⟩
  · intro h
    simp [GetTesterContext, h, isErr]
  · intro h
    cases hd : inp.submissionDir with
    | none => simp [GetTesterContext, hd, isErr]
    | some d => simp [GetTesterContext, hd, h, isErr]
  · intro raw tcs tc h1 h2 h3 h4
    cases hd : inp.submissionDir with
    | none => simp [GetTesterContext, hd, isErr]
    | some d =>
      have hfe := testCaseFieldError_ne_none tc h4
      cases hfind : tcs.findSome? testCaseFieldError with
      | none => exact absurd hfind (findSome?_ne_none_of_mem tcs tc h3 hfe)
      | some e => simp [GetTesterContext, hd, h1, h2, hfind, isErr]
  · intro raw h1 h2
    cases hd : inp.submissionDir with
    | none => simp [GetTesterContext, hd, isErr]
    | some d =>
      cases hy : inp.yamlDebug (pathJoin d "codecrafters.yml") with
      | none => simp [GetTesterContext, hd, h1, h2, hy, isErr]
      | some debug => simp [GetTesterContext, hd, h1, h2, hy, isErr]

/-- Witness for C8 (amended): the worker-mode empty-list input is
rejected. -/
theorem tester_context_errors_amended_witness :
    isErr (GetTesterContext workerEmptyInput "my_app") = true :=
  (tester_context_errors_amended workerEmptyInput "my_app").2.2.2 "[]" rfl rfl

/-- Counterexample to claim C9 as stated: `Executable.Clone` does not copy
the environment — the source (executable.go lines 97-106) copies `Path`,
`TimeoutInMilliseconds`, `loggerFunc`, `WorkingDir`, a fresh
`StdioHandler` and `MemoryLimitInBytes`, but leaves `Env` at its zero
value, so a handle with a caller-supplied environment loses it on Clone. -/
theorem clone_env_counterexample :
    sampleExecutable.clone.env ≠ sampleExecutable.env
      ∧ sampleExecutable.env = ["FOO=bar"]
      ∧ sampleExecutable.clone.env = [] := by
  refine ⟨?_, rfl, rfl⟩
  decide

/-- Claim C9, amended: `Clone` returns a fresh handle whose path, timeout,
memory cap, working directory and logger function equal those of the
original, with a fresh (empty) stdio handler of the same topology and no
live state; the environment is NOT copied (the clone's environment is
empty, falling back to the inherited one on the next Start). -/
theorem clone_config_amended (e : ExecutableM) :
    e.clone.path = e.path
      ∧ e.clone.timeoutInMilliseconds = e.timeoutInMilliseconds
      ∧ e.clone.memoryLimitInBytes = e.memoryLimitInBytes
      ∧ e.clone.workingDir = e.workingDir
      ∧ e.clone.loggerFunc = e.loggerFunc
      ∧ e.clone.stdioHandler = e.stdioHandler.cloneHandler
      ∧ e.clone.stdioHandler.topology = e.stdioHandler.topology
      ∧ e.clone.stdioHandler.isFresh = true
      ∧ e.clone.env = []
      ∧ e.clone.live = idleState := by
  obtain ⟨p, t, m, w, env, lf, sh, live⟩ := e
  cases sh <;> exact ⟨rfl, rfl, rfl, rfl, rfl, rfl, rfl, rfl, rfl, rfl⟩

/-- Claim C10: calling `Logger.PopSecondaryPrefix` on a logger whose
secondary stack is empty does not panic (the model is total and takes the
guarded early-return branch): it returns the empty string and leaves the
logger — in particular its stack and its rendered line header — exactly
unchanged. -/
theorem pop_secondary_on_empty (l : LoggerM)
    (h : l.secondaryPrefixes = []) :
    popSecondary l = ("", l)
      ∧ (popSecondary l).2.secondaryPrefixes = []
      ∧ (popSecondary l).2.rendered = l.rendered := by
  have hmain : popSecondary l = ("", l) := by
    simp [popSecondary, h]
  exact ⟨hmain, by rw [hmain]; exact h, by rw [hmain]⟩

/-- Witness for C10: popping the empty stack of a concrete logger. -/
theorem pop_secondary_on_empty_witness :
    popSecondary sampleLogger = ("", sampleLogger) :=
  (pop_secondary_on_empty sampleLogger rfl).1

end TesterUtils
